import Mathlib

/-
Shallow embedding of the go-fault middleware package (fault.go).

Modelling conventions:
- An http.Handler is a function from a request to an observable outcome.
  The outcome records the ordered list of observable side effects (reporter
  messages, calls to the pluggable sleep function, tracing marks used by
  instrumented sub-injectors) together with either a written response
  (`Outcome.ok`), a panic with http.ErrAbortHandler (`Outcome.aborted`), or a
  runtime panic such as an index out of range (`Outcome.crashed`).
- Go nil pointers and nil slices are modelled with `Option`; a method on a
  possibly-nil receiver becomes a function on `Option Receiver`.
- float32 percents and the rand.Float32 sample are modelled as rationals:
  the Go code only compares these values (no arithmetic), so the comparisons
  are exact. time.Duration (int64 nanoseconds) is modelled as Int.
- rand.Float32 is consumed inside Fault.Handler, so the embedded
  Fault.Handler takes the sampled value as an explicit argument; the handler
  it returns takes none, mirroring where the Go code draws randomness.
- The Injector interface is its one relevant capability: a function wrapping
  a downstream handler, `Middleware := Handler → Handler`.
-/

namespace GoFault

/-- Go time.Duration: int64 nanoseconds. -/
abbrev Duration := Int

/-- Context tags attached to a request by injectors (ContextValueChainInjector
and friends; the constants live outside src/). -/
inductive ContextValue where
  | chainInjector
  | randomInjector
  | slowInjector
deriving DecidableEq

/-- A request; the package never inspects it except to attach context tags. -/
structure Request where
  ctx : List ContextValue
deriving DecidableEq

/-- A written HTTP response: status code plus body text. -/
structure Response where
  status : Int
  body : String
deriving DecidableEq

/-- Observable side effects during request handling. -/
inductive Event where
  | report (msg : String)
  | sleepCall (d : Duration)
  | mark (tag : String)
deriving DecidableEq

/-- The outcome of handling one request: the ordered event trace plus how the
exchange ended. `aborted` is the panic(http.ErrAbortHandler) termination,
distinguishable from an ordinary response; `crashed` is any other runtime
panic (e.g. index out of range). -/
inductive Outcome where
  | ok (events : List Event) (resp : Option Response)
  | aborted (events : List Event)
  | crashed (events : List Event)
deriving DecidableEq

/-- Discriminator for the abort outcome: how a host tells the intentional
connection abort apart from an ordinary (error or not) response. -/
def Outcome.isAborted : Outcome → Bool
  | .aborted _ => true
  | _ => false

/-- Prepend events performed by a wrapper before it ran the inner handler. -/
def Outcome.withEvents (es : List Event) : Outcome → Outcome
  | .ok e r => .ok (es ++ e) r
  | .aborted e => .aborted (es ++ e)
  | .crashed e => .crashed (es ++ e)

/-- http.Handler. -/
abbrev Handler := Request → Outcome

/-- The Handler method of an Injector: it wraps a downstream handler. -/
abbrev Middleware := Handler → Handler

/-- The sentinel errors declared at the top of fault.go. -/
inductive Err where
  | errNilInjector
  | errInvalidPercent
  | errInvalidHTTPCode
deriving DecidableEq

/-- Boolean success test for an Except value. -/
def exceptIsOk {α : Type} : Except Err α → Bool
  | .ok _ => true
  | .error _ => false

/-- Go net/http StatusText: the canonical reason phrase for a status code,
or the empty string for an unknown code. -/
def statusText : Int → String
  | 100 => "Continue"
  | 101 => "Switching Protocols"
  | 102 => "Processing"
  | 103 => "Early Hints"
  | 200 => "OK"
  | 201 => "Created"
  | 202 => "Accepted"
  | 203 => "Non-Authoritative Information"
  | 204 => "No Content"
  | 205 => "Reset Content"
  | 206 => "Partial Content"
  | 207 => "Multi-Status"
  | 208 => "Already Reported"
  | 226 => "IM Used"
  | 300 => "Multiple Choices"
  | 301 => "Moved Permanently"
  | 302 => "Found"
  | 303 => "See Other"
  | 304 => "Not Modified"
  | 305 => "Use Proxy"
  | 307 => "Temporary Redirect"
  | 308 => "Permanent Redirect"
  | 400 => "Bad Request"
  | 401 => "Unauthorized"
  | 402 => "Payment Required"
  | 403 => "Forbidden"
  | 404 => "Not Found"
  | 405 => "Method Not Allowed"
  | 406 => "Not Acceptable"
  | 407 => "Proxy Authentication Required"
  | 408 => "Request Timeout"
  | 409 => "Conflict"
  | 410 => "Gone"
  | 411 => "Length Required"
  | 412 => "Precondition Failed"
  | 413 => "Request Entity Too Large"
  | 414 => "Request URI Too Long"
  | 415 => "Unsupported Media Type"
  | 416 => "Requested Range Not Satisfiable"
  | 417 => "Expectation Failed"
  | 418 => "I\x27m a teapot"
  | 421 => "Misdirected Request"
  | 422 => "Unprocessable Entity"
  | 423 => "Locked"
  | 424 => "Failed Dependency"
  | 425 => "Too Early"
  | 426 => "Upgrade Required"
  | 428 => "Precondition Required"
  | 429 => "Too Many Requests"
  | 431 => "Request Header Fields Too Large"
  | 451 => "Unavailable For Legal Reasons"
  | 500 => "Internal Server Error"
  | 501 => "Not Implemented"
  | 502 => "Bad Gateway"
  | 503 => "Service Unavailable"
  | 504 => "Gateway Timeout"
  | 505 => "HTTP Version Not Supported"
  | 506 => "Variant Also Negotiates"
  | 507 => "Insufficient Storage"
  | 508 => "Loop Detected"
  | 510 => "Not Extended"
  | 511 => "Network Authentication Required"
  | _ => ""

/-- Options holds configuration for a Fault. The Injector field is the
interface value (nil-able), reduced to its Handler capability. -/
structure Options where
  Enabled : Bool
  Injector : Option Middleware
  PercentOfRequests : ℚ

/-- Fault combines an Injector with configuration. -/
structure Fault where
  opt : Options

/-- NewFault validates the provided options and returns a Fault struct. -/
def NewFault (o : Options) : Except Err Fault :=
  if o.Injector.isNone then .error .errNilInjector
  else if o.PercentOfRequests < 0 ∨ o.PercentOfRequests > 1 then .error .errInvalidPercent
  else .ok ⟨o⟩

/-- percentDo: rand.Float32 is modelled by the argument rn, a fresh uniform
sample in [0,1). Returns (rn < percent) and (percent <= 1.0). -/
def Fault.percentDo (f : Fault) (rn : ℚ) : Bool :=
  decide (rn < f.opt.PercentOfRequests) && decide (f.opt.PercentOfRequests ≤ 1)

/-- Fault.Handler on a possibly-nil receiver. Note the structure of the Go
code: percentDo (and hence the one random draw, the argument rn) happens when
Handler is called, i.e. when the middleware chain is built; the returned
handler itself consumes no randomness. -/
def Fault.Handler (f? : Option Fault) (rn : ℚ) (next : Handler) : Handler :=
  match f? with
  | some f =>
    if f.opt.Enabled then
      if f.percentDo rn && f.opt.Injector.isSome then
        match f.opt.Injector with
        | some inj => inj next
        | none => fun r => next r
      else fun r => next r
    else fun r => next r
  | none => fun r => next r

/-- ChainedInjector combines many injectors; each contributes its Handler
method to the middlewares list. -/
structure ChainedInjector where
  middlewares : List Middleware

/-- NewChainedInjector: the Go variadic slice argument is nil-able, so the
argument is an Option; a nil slice is rejected with ErrNilInjector, any
non-nil slice (the empty one included) is accepted, its elements turned into
the middlewares list. -/
def NewChainedInjector (injs? : Option (List Middleware)) : Except Err ChainedInjector :=
  match injs? with
  | none => .error .errNilInjector
  | some injs => .ok ⟨injs⟩

/-- ChainedInjector.Handler: loops over middlewares in reverse index order,
wrapping the accumulated chain, starting from next; then runs the chain.
The reverse loop is exactly a right fold of application over the list. -/
def ChainedInjector.Handler (i? : Option ChainedInjector) (next : Handler) : Handler :=
  fun r =>
    match i? with
    | some i => (i.middlewares.foldr (fun m chain => m chain) next) r
    | none => next r

/-- RejectInjector has no configuration. -/
structure RejectInjector

/-- NewRejectInjector always succeeds. -/
def NewRejectInjector : Except Err RejectInjector := .ok ⟨⟩

/-- RejectInjector.Handler panics with http.ErrAbortHandler unconditionally:
the closure never reads the receiver and never calls next. -/
def RejectInjector.Handler (_i? : Option RejectInjector) (_next : Handler) : Handler :=
  fun _r => Outcome.aborted []

/-- ErrorInjector stores a status code and the reason text captured at
construction time. -/
structure ErrorInjector where
  statusCode : Int
  statusText : String
deriving DecidableEq

/-- NewErrorInjector validates the code against http.StatusText. -/
def NewErrorInjector (code : Int) : Except Err ErrorInjector :=
  let st := statusText code
  if st = "" then .error .errInvalidHTTPCode
  else .ok ⟨code, st⟩

/-- http.Error: writes the status code and the message followed by a
newline (fmt.Fprintln). -/
def httpError (msg : String) (code : Int) : Response :=
  ⟨code, msg ++ "\n"⟩

/-- ErrorInjector.Handler: on a non-nil receiver with a still-valid code,
writes the stored reason text with the stored code and returns without
calling next; otherwise falls through to next. -/
def ErrorInjector.Handler (i? : Option ErrorInjector) (next : Handler) : Handler :=
  fun r =>
    match i? with
    | some i =>
      if GoFault.statusText i.statusCode ≠ "" then
        Outcome.ok [] (some (httpError i.statusText i.statusCode))
      else next r
    | none => next r

/-- SlowInjector stores a duration and a nil-able sleep function. The sleep
function is modelled by the events its call emits. -/
structure SlowInjector where
  duration : Duration
  sleep : Option (Duration → List Event)

/-- time.Sleep, modelled as the event recording the call and its argument. -/
def timeSleep : Duration → List Event := fun d => [Event.sleepCall d]

/-- NewSlowInjector: stores the duration and time.Sleep. -/
def NewSlowInjector (d : Duration) : Except Err SlowInjector :=
  .ok ⟨d, some timeSleep⟩

/-- SlowInjector.Handler: on a non-nil receiver with a non-nil sleep
function, calls sleep with the stored duration, then always calls next. -/
def SlowInjector.Handler (i? : Option SlowInjector) (next : Handler) : Handler :=
  fun r =>
    match i? with
    | some i =>
      match i.sleep with
      | some s => Outcome.withEvents (s i.duration) (next r)
      | none => next r
    | none => next r

/-- Modelled from the spec: a Reporter is an external, write-only
notification sink with a single method report(request, message); it is
opaque to the core. Its definition is not under src/, only its uses are. -/
structure Reporter where
  sink : String

/-- Modelled from the spec: reportWithMessage calls the Reporter sink with
the request and the message; a nil/absent Reporter degrades to a no-op
rather than failing the request. The helper itself is not under src/, only
its call sites are. -/
def reportWithMessage (rep : Option Reporter) (_r : Request) (msg : String) : List Event :=
  match rep with
  | some _ => [Event.report msg]
  | none => []

/-- Modelled from the spec: updateRequestContextValue attaches an opaque
context tag to the request identifying which injector acted on it, for
downstream diagnostic use. The helper is not under src/, only its call
sites are. -/
def updateRequestContextValue (r : Request) (v : ContextValue) : Request :=
  ⟨r.ctx ++ [v]⟩

/-- RandomInjector: a pluggable integer-random source (rand.Intn by
default), the sub-injector handler list, and a nil-able reporter. -/
structure RandomInjector where
  randF : Nat → Nat
  middlewares : List Middleware
  reporter : Option Reporter

/-- NewRandomInjector: stores the sub-injector handlers in order and sets
randF to rand.Intn. Here randIntn is the model of the global rand.Intn,
abstract except that it returns a value in [0, n) for positive n. -/
def NewRandomInjector (randIntn : Nat → Nat) (injs : List Middleware) :
    Except Err RandomInjector :=
  .ok ⟨randIntn, injs, none⟩

/-- RandomInjector.Handler: on a non-nil receiver with a non-empty list,
reports a start event, tags the request context, draws idx = randF(len) and
runs exactly middlewares[idx] wrapped around next; the Go indexing panics
if idx were ever out of range. An empty list or nil receiver delegates
straight to next. -/
def RandomInjector.Handler (i? : Option RandomInjector) (next : Handler) : Handler :=
  fun r =>
    match i? with
    | some i =>
      if 0 < i.middlewares.length then
        let es := reportWithMessage i.reporter r "random injector: starting"
        let r2 := updateRequestContextValue r ContextValue.randomInjector
        let idx := i.randF i.middlewares.length
        if hidx : idx < i.middlewares.length then
          Outcome.withEvents es ((i.middlewares.get ⟨idx, hidx⟩) next r2)
        else Outcome.crashed es
      else next r
    | none => next r

/-
Instrumentation used by the theorems: concrete handlers and observable
sub-injectors, as the spec suggests (verify order via an observable
side-effect sequence recorded by each).
-/

/-- A request with no context tags. -/
def baseReq : Request := ⟨[]⟩

/-- A downstream handler that records that it ran and writes a 200. -/
def nextMark : Handler :=
  fun _r => Outcome.ok [Event.mark "downstream"] (some ⟨200, "Hello World"⟩)

/-- A sub-injector that records a tag and then delegates to the inner
handler: an injector with an observable side effect and no early
termination. -/
def traceMw (tag : String) : Middleware :=
  fun inner r => Outcome.withEvents [Event.mark tag] (inner r)

/-- A non-terminating sub-injector in general form: it performs some events
(depending on the request), possibly rewrites the request, and then always
delegates to the inner handler. -/
def recordsThenDelegates (ev : Request → List Event) (tr : Request → Request) : Middleware :=
  fun inner r => Outcome.withEvents (ev r) (inner (tr r))

/-- Sequential execution in list order, as the spec words it: the first
sub-injector acts first, then the rest, then the downstream handler. -/
def chainSpec : List ((Request → List Event) × (Request → Request)) → Handler → Handler
  | [], next => fun r => next r
  | p :: rest, next => fun r => Outcome.withEvents (p.1 r) (chainSpec rest next (p.2 r))

/-- A concrete enabled gate at fifty percent around an observable injector. -/
def gateHalf : Fault := ⟨⟨true, some (traceMw "injector"), 1/2⟩⟩

/-- Prepending events twice is prepending the concatenation. -/
theorem Outcome.withEvents_withEvents (a b : List Event) (o : Outcome) :
    Outcome.withEvents a (Outcome.withEvents b o) = Outcome.withEvents (a ++ b) o := by
  cases o <;> simp [Outcome.withEvents]

/-- Claim C2: constructing a ChainedInjector from an empty (non-nil) list of
sub-injectors succeeds, and the resulting handler delegates every request
straight to next. -/
theorem chained_empty_list_passthrough :
    NewChainedInjector (some []) = .ok ⟨[]⟩ ∧
    ∀ (next : Handler) (r : Request),
      ChainedInjector.Handler (some ⟨[]⟩) next r = next r :=
  ⟨rfl, fun _ _ => rfl⟩

/-- Claim C3 (amended): a nil Fault, a nil ChainedInjector, ErrorInjector or
SlowInjector receiver, and a nil Reporter all degrade to transparent
pass-through; a nil RejectInjector receiver, however, still aborts the
exchange exactly like a non-nil one. -/
theorem nil_receivers_passthrough :
    (∀ (rn : ℚ) (next : Handler) (r : Request), Fault.Handler none rn next r = next r) ∧
    (∀ (next : Handler) (r : Request), ChainedInjector.Handler none next r = next r) ∧
    (∀ (next : Handler) (r : Request), ErrorInjector.Handler none next r = next r) ∧
    (∀ (next : Handler) (r : Request), SlowInjector.Handler none next r = next r) ∧
    (∀ (next : Handler) (r : Request), RandomInjector.Handler none next r = next r) ∧
    (∀ (r : Request) (msg : String), reportWithMessage none r msg = []) ∧
    (∀ (next : Handler) (r : Request),
      RejectInjector.Handler none next r = Outcome.aborted []) :=
  ⟨fun _ _ _ => rfl, fun _ _ => rfl, fun _ _ => rfl, fun _ _ => rfl,
   fun _ _ => rfl, fun _ _ => rfl, fun _ _ => rfl⟩

/-- Claim C3 counterexample: the handler of a nil RejectInjector receiver
does not delegate to next on a concrete request; it aborts the exchange. -/
theorem nil_reject_not_passthrough :
    RejectInjector.Handler none nextMark baseReq ≠ nextMark baseReq := by
  decide

/-- Claim C8: the RejectInjector handler aborts every request with the
distinguished abort outcome, independent of the receiver and of next, with
no response written, no events, and next never invoked; the abort outcome is
distinct from every ordinary response outcome. -/
theorem reject_always_aborts :
    (∀ (i? : Option RejectInjector) (next : Handler) (r : Request),
      RejectInjector.Handler i? next r = Outcome.aborted []) ∧
    (∀ es : List Event, (Outcome.aborted es).isAborted = true) ∧
    (∀ (es : List Event) (resp : Option Response), (Outcome.ok es resp).isAborted = false) :=
  ⟨fun _ _ _ => rfl, fun _ => rfl, fun _ _ => rfl⟩

/-- Claim C9: a SlowInjector built by NewSlowInjector with duration d stores
d and the pluggable sleep function; its handler calls the sleep function
exactly once with exactly d before the downstream handler, and the
downstream outcome always follows. -/
theorem slow_sleeps_then_next :
    ∀ (d : Duration),
      NewSlowInjector d = .ok ⟨d, some timeSleep⟩ ∧
      ∀ (next : Handler) (r : Request),
        SlowInjector.Handler (some ⟨d, some timeSleep⟩) next r =
          Outcome.withEvents [Event.sleepCall d] (next r) :=
  fun _ => ⟨rfl, fun _ _ => rfl⟩

/-- Claim C10: with Enabled set to false the gate handler is extensionally
the downstream handler, whatever the injector, percent and random sample. -/
theorem disabled_gate_is_next :
    ∀ (inj : Option Middleware) (p rn : ℚ) (next : Handler) (r : Request),
      Fault.Handler (some ⟨⟨false, inj, p⟩⟩) rn next r = next r :=
  fun _ _ _ _ _ => rfl

/-- Claim C5: NewFault errors exactly when the injector is nil or the
percent lies outside [0,1]; it fails at -0.1 and 1.1, succeeds at 0.0 and
1.0, and every successfully constructed Fault keeps a non-nil injector and
an in-bounds percent. -/
theorem newfault_validation :
    (∀ o : Options,
      exceptIsOk (NewFault o) = true ↔
        (o.Injector.isSome = true ∧ 0 ≤ o.PercentOfRequests ∧ o.PercentOfRequests ≤ 1)) ∧
    NewFault ⟨true, some (traceMw "injector"), -(1/10)⟩ = .error .errInvalidPercent ∧
    NewFault ⟨true, some (traceMw "injector"), 11/10⟩ = .error .errInvalidPercent ∧
    exceptIsOk (NewFault ⟨true, some (traceMw "injector"), 0⟩) = true ∧
    exceptIsOk (NewFault ⟨true, some (traceMw "injector"), 1⟩) = true ∧
    (∀ o : Options,
      match NewFault o with
      | .ok f => f.opt.Injector.isSome = true ∧ 0 ≤ f.opt.PercentOfRequests ∧
          f.opt.PercentOfRequests ≤ 1 ∧ f.opt = o
      | .error _ => o.Injector = none ∨ o.PercentOfRequests < 0 ∨ o.PercentOfRequests > 1) := by
  refine ⟨?_, by norm_num [NewFault], by norm_num [NewFault],
    by norm_num [NewFault, exceptIsOk], by norm_num [NewFault, exceptIsOk], ?_⟩
  · rintro ⟨en, inj, p⟩
    cases inj with
    | none => simp [NewFault, exceptIsOk]
    | some m =>
      by_cases h : p < 0 ∨ p > 1
      · rw [NewFault]
        simp only [Option.isNone_some, Bool.false_eq_true, if_false, if_pos h]
        simp only [exceptIsOk, Bool.false_eq_true, false_iff]
        rintro ⟨-, h0, h1⟩
        rcases h with h | h
        · exact absurd h0 (not_le.mpr h)
        · exact absurd h1 (not_le.mpr h)
      · rw [NewFault]
        simp only [Option.isNone_some, Bool.false_eq_true, if_false, if_neg h]
        push_neg at h
        simp [exceptIsOk, Option.isSome_some, h.1, h.2]
  · rintro ⟨en, inj, p⟩
    cases inj with
    | none => simp [NewFault]
    | some m =>
      by_cases h : p < 0 ∨ p > 1
      · rw [NewFault]
        simp only [Option.isNone_some, Bool.false_eq_true, if_false, if_pos h]
        exact Or.inr h
      · rw [NewFault]
        simp only [Option.isNone_some, Bool.false_eq_true, if_false, if_neg h]
        push_neg at h
        simp [h.1, h.2]

/-- Claim C6: NewErrorInjector fails exactly on codes with no canonical
reason phrase (999 in particular), succeeds on 503, and the handler of any
successfully constructed ErrorInjector writes the configured code with its
canonical reason text (plus the newline appended by http.Error) and never
invokes next. -/
theorem error_injector_validation :
    (∀ code : Int, exceptIsOk (NewErrorInjector code) = false ↔ statusText code = "") ∧
    NewErrorInjector 999 = .error .errInvalidHTTPCode ∧
    NewErrorInjector 503 = .ok ⟨503, "Service Unavailable"⟩ ∧
    (∀ (code : Int) (inj : ErrorInjector), NewErrorInjector code = .ok inj →
      ∀ (next : Handler) (r : Request),
        ErrorInjector.Handler (some inj) next r =
          Outcome.ok [] (some ⟨code, statusText code ++ "\n"⟩)) := by
  refine ⟨?_, rfl, rfl, ?_⟩
  · intro code
    by_cases h : statusText code = "" <;> simp [NewErrorInjector, exceptIsOk, h]
  · intro code inj h next r
    by_cases hst : statusText code = ""
    · simp [NewErrorInjector, hst] at h
    · simp only [NewErrorInjector, if_neg hst] at h
      cases h
      simp [ErrorInjector.Handler, hst, httpError]

/-- Claim C6 witness: the 503 injector from the previous theorem evaluated
on a concrete request. -/
theorem error_injector_validation_witness :
    ErrorInjector.Handler (some ⟨503, "Service Unavailable"⟩) nextMark baseReq =
      Outcome.ok [] (some ⟨503, "Service Unavailable\n"⟩) :=
  error_injector_validation.2.2.2 503 ⟨503, "Service Unavailable"⟩
    error_injector_validation.2.2.1 nextMark baseReq

/-- The reverse-order fold in ChainedInjector.Handler runs non-terminating
sub-injectors in list order: head first, then the rest, then next. -/
theorem chained_foldr_runs_in_order
    (ps : List ((Request → List Event) × (Request → Request)))
    (next : Handler) (r : Request) :
    ChainedInjector.Handler (some ⟨ps.map fun q => recordsThenDelegates q.1 q.2⟩) next r =
      chainSpec ps next r := by
  induction ps generalizing r with
  | nil => rfl
  | cons p rest ih =>
    have hstep :
        ChainedInjector.Handler
            (some ⟨(p :: rest).map fun q => recordsThenDelegates q.1 q.2⟩) next r =
          Outcome.withEvents (p.1 r)
            (ChainedInjector.Handler
              (some ⟨rest.map fun q => recordsThenDelegates q.1 q.2⟩) next (p.2 r)) := rfl
    rw [hstep, ih]
    rfl

/-- Claim C4: for every list of sub-injectors that record an observable
effect and then always delegate, the chained injector built from them in
list order produces a handler whose execution is exactly sequential
execution in the supplied order followed by the downstream handler. -/
theorem chain_executes_in_list_order :
    ∀ (ps : List ((Request → List Event) × (Request → Request)))
      (next : Handler) (r : Request),
      NewChainedInjector (some (ps.map fun q => recordsThenDelegates q.1 q.2)) =
        .ok ⟨ps.map fun q => recordsThenDelegates q.1 q.2⟩ ∧
      ChainedInjector.Handler (some ⟨ps.map fun q => recordsThenDelegates q.1 q.2⟩) next r =
        chainSpec ps next r :=
  fun ps next r => ⟨rfl, chained_foldr_runs_in_order ps next r⟩

/-- Claim C7: over a non-empty sub-injector list the RandomInjector handler
reports a start event, tags the request context, and delegates exclusively
to the one sub-injector at the index drawn from the pluggable random source
(assumed in range, as rand.Intn guarantees); over an empty list it delegates
straight to next. -/
theorem random_delegates_to_sampled :
    (∀ (f : Nat → Nat) (ms : List Middleware) (rep : Option Reporter)
      (next : Handler) (r : Request) (h : f ms.length < ms.length),
      RandomInjector.Handler (some ⟨f, ms, rep⟩) next r =
        Outcome.withEvents (reportWithMessage rep r "random injector: starting")
          ((ms.get ⟨f ms.length, h⟩) next
            (updateRequestContextValue r ContextValue.randomInjector))) ∧
    (∀ (f : Nat → Nat) (rep : Option Reporter) (next : Handler) (r : Request),
      RandomInjector.Handler (some ⟨f, [], rep⟩) next r = next r) := by
  constructor
  · intro f ms rep next r h
    have hpos : 0 < ms.length := lt_of_le_of_lt (Nat.zero_le _) h
    simp only [RandomInjector.Handler, if_pos hpos, dif_pos h]
  · intro f rep next r
    rfl

/-- Claim C7 witness: with two traced sub-injectors and a source that draws
index 1, only the second sub-injector acts, on the tagged request, before
the downstream handler. -/
theorem random_delegates_to_sampled_witness :
    RandomInjector.Handler (some ⟨fun _ => 1, [traceMw "A", traceMw "B"], none⟩)
        nextMark baseReq =
      Outcome.ok [Event.mark "B", Event.mark "downstream"] (some ⟨200, "Hello World"⟩) :=
  random_delegates_to_sampled.1 (fun _ => 1) [traceMw "A", traceMw "B"] none
    nextMark baseReq (by decide)

/-- Claim C1 evidence: percentDo would accept a fresh sample 0.1 against
percent 0.5, yet the handler built by Fault.Handler with the one wrap-time
sample 0.6 sends every request to next, although the configured injector is
observably different from next. The random draw happens once, when Handler
is called, not per request invocation. -/
theorem gate_samples_once_at_wrap_time :
    Fault.percentDo gateHalf (1/10) = true ∧
    (∀ r : Request, Fault.Handler (some gateHalf) (3/5) nextMark r = nextMark r) ∧
    traceMw "injector" nextMark baseReq =
      Outcome.ok [Event.mark "injector", Event.mark "downstream"]
        (some ⟨200, "Hello World"⟩) ∧
    nextMark baseReq =
      Outcome.ok [Event.mark "downstream"] (some ⟨200, "Hello World"⟩) := by
  refine ⟨by norm_num [Fault.percentDo, gateHalf], ?_, rfl, rfl⟩
  have h1 : Fault.percentDo gateHalf (3/5) = false := by
    norm_num [Fault.percentDo, gateHalf]
  have h2 : gateHalf.opt.Enabled = true := rfl
  intro r
  simp [Fault.Handler, h1, h2]

end GoFault
